import Mathlib

/-!
# Verification of the shift-exchange server (`server/main.py`)

A shallow embedding of the core of the Telegram miniapp shift-exchange
server: the init-data signature verifier (`check_init_data`), the
future-slot validator (`validate_future`), the mutual-match engine
(`try_match_and_notify`), the notification dispatcher (`notify_match`),
the expiry sweep (`cleanup_expired`), the actual-dates query
(`actual_dates`), the auth upsert (`auth`), and offer creation
(`create_offer`).

Modelling conventions:
* Database tables become Lean lists of rows; SQL filters become
  `List.filter`, `SELECT ... WHERE id=...` becomes `List.find?`, and
  `UPDATE` becomes `List.map` guarded by the `WHERE` condition.
* Instants are `Int` seconds on a proleptic-Gregorian epoch
  (`localSecs`), mirroring Python `datetime` ordering; the fixed GMT+3
  offset is the constant `TZ_OFFSET`.
* Hours `'HH:00'` are modelled by their hour number (the code only ever
  uses `int(hour.split(':')[0])` and equality/ordering of the strings,
  which agree with the numbers on the two-digit range in use).
* The external crypto and JSON primitives (`hmac`/`hashlib`,
  `json.loads`) are abstract function parameters `mac` and `parseJson`:
  the verifier's control flow is what is embedded and verified.
* The outbound Telegram gateway (`httpx` post) is an abstract fallible
  `send` function; `notify_match`'s `try/except` is embedded by giving
  it a total return type carrying the logged error, so a transport
  failure can never propagate.
* `HTTPException(status, detail)` becomes `Except (Nat × String)`.
-/

namespace TgMiniapp

/-- Offer status column: `'active' | 'matched' | 'cancelled' | 'expired'`. -/
inductive Status where
  | active
  | matched
  | cancelled
  | expired
deriving DecidableEq, Repr

/-- A calendar date (`DATE` column / Python `datetime.date`). -/
structure Date where
  y : Nat
  m : Nat
  d : Nat
deriving DecidableEq, Repr

/-- A shift slot: a calendar date plus an on-the-hour hour number
(the `'HH:00'` text column). -/
structure Slot where
  date : Date
  hour : Nat
deriving DecidableEq, Repr

/-- Row of the `offers` table (timestamps are not modelled). -/
structure Offer where
  id : Nat
  user_tg : Int
  department : String
  have_date : Date
  have_hour : Nat
  status : Status
deriving DecidableEq, Repr

/-- Row of the `offer_wants` table. -/
structure WantRow where
  offer_id : Nat
  want_date : Date
  want_hour : Nat
deriving DecidableEq, Repr

/-- Row of the `users` table (`Option` fields are nullable columns). -/
structure UserRow where
  tg_id : Int
  tg_username : Option String
  full_name : Option String
  department : Option String
deriving DecidableEq, Repr

/-- The persistent store: the three tables plus the `SERIAL` counter
feeding `offers.id`. -/
structure DB where
  users : List UserRow
  offers : List Offer
  wants : List WantRow
  nextOfferId : Nat
deriving DecidableEq, Repr

/-- `TZ_OFFSET = +3`: the fixed GMT+3 deployment offset. -/
def TZ_OFFSET : Int := 3

/-- The static department → allowed (start, end) shift-hour table
`DEPT_SLOTS` (hours of the `'HH:00'` strings). -/
def DEPT_SLOTS : List (String × List (Nat × Nat)) :=
  [ ("VIP CALLS", [(8, 17), (10, 19), (12, 21)]),
    ("VIP LITE CHAT", [(13, 1), (12, 21), (7, 16), (9, 18)]),
    ("VIP NIGHTS CHAT", [(20, 8)]) ]

/-- `check_department`: membership of `dept` among `DEPT_SLOTS` keys. -/
def check_department (dept : String) : Except (Nat × String) Unit :=
  if (DEPT_SLOTS.map Prod.fst).contains dept then Except.ok ()
  else Except.error (400, "Unknown department")

/-- Days since 0000-03-01 of a civil date (proleptic Gregorian, valid
for years ≥ 1); the standard era/year-of-era computation underlying
Python `datetime` ordering. -/
def daysFromCivil (dt : Date) : Nat :=
  let y' : Nat := if dt.m ≤ 2 then dt.y - 1 else dt.y
  let era : Nat := y' / 400
  let yoe : Nat := y' % 400
  let mp : Nat := (dt.m + 9) % 12
  let doy : Nat := (153 * mp + 2) / 5 + dt.d - 1
  let doe : Nat := yoe * 365 + yoe / 4 - yoe / 100 + doy
  era * 146097 + doe

/-- Seconds-on-the-epoch of naive `datetime(y, m, d, hh, 0)`; used both
for the GMT+3 wall-clock instants and (shifted by `TZ_OFFSET` hours)
for their UTC counterparts. -/
def localSecs (dt : Date) (hh : Nat) : Int :=
  (daysFromCivil dt : Int) * 86400 + (hh : Int) * 3600

/-- The UTC instant of a (date, hour) candidate:
`datetime(y, m, d, hh, tzinfo=utc) - timedelta(hours=TZ_OFFSET)`. -/
def candidateUtc (dt : Date) (hh : Nat) : Int :=
  localSecs dt hh - TZ_OFFSET * 3600

/-- `validate_future(date, hour)` at current UTC instant `now_utc`:
converts the candidate from GMT+3 to UTC and rejects it unless it is
strictly in the future (`candidate <= now_utc` fails). The string
parsing of the source is outside the model: the arguments are the
already-parsed (date, hour). -/
def validate_future (now_utc : Int) (dt : Date) (hh : Nat) :
    Except (Nat × String) Unit :=
  if candidateUtc dt hh ≤ now_utc then
    Except.error (400, "Date/time already passed")
  else Except.ok ()

/-! ## Auth: `check_init_data` -/

/-- The decoded Telegram user record (`json.loads` of the `user`
field): numeric identity plus optional names and handle. -/
structure UserRec where
  id : Int
  first_name : Option String
  last_name : Option String
  username : Option String
deriving DecidableEq, Repr

/-- One `dict` update step: Python `dict` assignment keeps the first
occurrence's position and the last occurrence's value. -/
def dictUpd (d : List (String × String)) (k v : String) :
    List (String × String) :=
  if d.any (fun p => p.1 == k) then
    d.map (fun p => if p.1 == k then (k, v) else p)
  else d ++ [(k, v)]

/-- `dict(urllib.parse.parse_qsl(init_data, keep_blank_values=True))`:
the token is modelled as its already-URL-decoded key/value pair list,
folded into a key-unique association list. -/
def dictify (ps : List (String × String)) : List (String × String) :=
  ps.foldl (fun d p => dictUpd d p.1 p.2) []

/-- Boolean lexicographic order on strings by character code, the order
of Python `sorted` on the keys. -/
def strLe (a b : String) : Bool := a == b || decide (a < b)

/-- Insert into a `le`-sorted list (insertion sort step). -/
def insertLe {α : Type} (le : α → α → Bool) (a : α) : List α → List α
  | [] => [a]
  | b :: bs => if le a b then a :: b :: bs else b :: insertLe le a bs

/-- Insertion sort by a Boolean order. -/
def sortByB {α : Type} (le : α → α → Bool) (l : List α) : List α :=
  l.foldr (insertLe le) []

/-- `data_check_string`: `key=value` lines for the lexicographically
sorted keys of `data`, joined with newlines. -/
def data_check_string (data : List (String × String)) : String :=
  String.intercalate "\n"
    ((sortByB strLe (data.map Prod.fst)).map
      (fun k => k ++ "=" ++ ((data.lookup k).getD "")))

/-- `check_init_data`, parameterised by the external primitives:
`mac` is `hmac.new(sha256(BOT_TOKEN), ·, sha256).hexdigest()` and
`parseJson` is `json.loads` on user payloads (`none` = raises).
Checks, in source order: server misconfiguration, missing `hash`,
signature over the sorted `key=value` check string of the remaining
pairs, presence of a non-empty `user` field, and JSON decoding. -/
def check_init_data (mac : String → String)
    (parseJson : String → Option UserRec) (botToken : String)
    (init_data : List (String × String)) :
    Except (Nat × String) UserRec :=
  if botToken = "" then
    Except.error (500, "Server misconfigured: BOT_TOKEN is not set")
  else
    let data := dictify init_data
    match data.lookup "hash" with
    | none => Except.error (401, "missing hash")
    | some their_hash =>
      let data' := data.filter (fun p => !(p.1 == "hash"))
      if mac (data_check_string data') ≠ their_hash then
        Except.error (401, "bad hash")
      else
        match data'.lookup "user" with
        | none => Except.error (401, "missing user")
        | some user_json =>
          if user_json = "" then Except.error (401, "missing user")
          else
            match parseJson user_json with
            | none => Except.error (401, "bad user json")
            | some u => Except.ok u

/-! ## Matching engine -/

/-- The want set of an offer: `SELECT want_date, want_hour FROM
offer_wants WHERE offer_id=...`. -/
def wantsOf (db : DB) (oid : Nat) : List Slot :=
  (db.wants.filter (fun w => w.offer_id == oid)).map
    (fun w => ⟨w.want_date, w.want_hour⟩)

/-- The have-slot of an offer row. -/
def haveSlot (o : Offer) : Slot := ⟨o.have_date, o.have_hour⟩

/-- The candidate query of `try_match_and_notify`:
`SELECT * FROM offers WHERE status='active' AND department=A.department
AND (have_date, have_hour) IN A_wants AND user_tg <> A.user_tg`. -/
def matchCandidates (db : DB) (A : Offer) (A_wants : List Slot) :
    List Offer :=
  db.offers.filter (fun o =>
    decide (o.status = Status.active ∧ o.department = A.department ∧
      haveSlot o ∈ A_wants ∧ o.user_tg ≠ A.user_tg))

/-- `UPDATE offers SET status='matched' WHERE id IN (i, j)`. -/
def markMatched (db : DB) (i j : Nat) : DB :=
  { db with offers := db.offers.map (fun o =>
      if o.id = i ∨ o.id = j then { o with status := Status.matched }
      else o) }

/-- The pure state transition and result of `try_match_and_notify`
(notification split off into `notify_match`): re-read the trigger offer
(must still be `active`), load its wants, query candidates, and mark
the first mutual candidate and the trigger as `matched`. -/
def try_match (db : DB) (offer_id : Nat) : DB × Option (Offer × Offer) :=
  match db.offers.find? (fun o =>
      decide (o.id = offer_id ∧ o.status = Status.active)) with
  | none => (db, none)
  | some A =>
    let A_wants := wantsOf db offer_id
    let X := haveSlot A
    match (matchCandidates db A A_wants).find?
        (fun B => decide (X ∈ wantsOf db B.id)) with
    | none => (db, none)
    | some B => (markMatched db A.id B.id, some (A, B))

/-- `notify_match`: formats the two pairing messages and posts both via
the gateway inside one `try/except`; the total return type is the
embedded `except` — the logged error text, or `none` on success. A
failure on the first post skips the second, as in the source. -/
def notify_match (send : Int → String → Except String Unit)
    (botToken : String) (tgA tgB : Int) (A B : Offer) : Option String :=
  if botToken = "" then none
  else
    let textA :=
      "🎉 Найден взаимный обмен!\n\n" ++
      "Вы отдаёте: " ++ toString A.have_date.y ++ "-" ++
        toString A.have_date.m ++ "-" ++ toString A.have_date.d ++ " " ++
        toString A.have_hour ++ ":00\n" ++
      "Получаете: " ++ toString B.have_date.y ++ "-" ++
        toString B.have_date.m ++ "-" ++ toString B.have_date.d ++ " " ++
        toString B.have_hour ++ ":00\n\n" ++
      "Связаться: tg://user?id=" ++ toString tgB
    let textB :=
      "🎉 Найден взаимный обмен!\n\n" ++
      "Вы отдаёте: " ++ toString B.have_date.y ++ "-" ++
        toString B.have_date.m ++ "-" ++ toString B.have_date.d ++ " " ++
        toString B.have_hour ++ ":00\n" ++
      "Получаете: " ++ toString A.have_date.y ++ "-" ++
        toString A.have_date.m ++ "-" ++ toString A.have_date.d ++ " " ++
        toString A.have_hour ++ ":00\n\n" ++
      "Связаться: tg://user?id=" ++ toString tgA
    match send tgA textA with
    | Except.error e => some ("notify error: " ++ e)
    | Except.ok _ =>
      match send tgB textB with
      | Except.error e => some ("notify error: " ++ e)
      | Except.ok _ => none

/-- `try_match_and_notify`: the match transition followed (after
commit) by best-effort notification; the third component is the log. -/
def try_match_and_notify (send : Int → String → Except String Unit)
    (botToken : String) (db : DB) (offer_id : Nat) :
    DB × Option (Offer × Offer) × Option String :=
  match try_match db offer_id with
  | (db', none) => (db', none, none)
  | (db', some (A, B)) =>
    (db', some (A, B), notify_match send botToken A.user_tg B.user_tg A B)

/-! ## Expiry sweep -/

/-- Does this active offer's local slot instant lie at or before the
local "now"? (`datetime(y, m, d, hh) <= now_local.replace(tzinfo=None)`). -/
def expiredSel (now_local : Int) (o : Offer) : Bool :=
  decide (o.status = Status.active ∧
    localSecs o.have_date o.have_hour ≤ now_local)

/-- `cleanup_expired`: collect the ids of active offers whose have-slot
instant has passed in GMT+3, and batch-update exactly those ids to
`expired`; when nothing is collected no update statement runs. -/
def cleanup_expired (now_local : Int) (db : DB) : DB :=
  let to_expire := (db.offers.filter (expiredSel now_local)).map Offer.id
  if to_expire.isEmpty then db
  else
    { db with offers := db.offers.map (fun o =>
        if to_expire.contains o.id then { o with status := Status.expired }
        else o) }

/-! ## Queries -/

/-- Date order of the `DATE` column. -/
def Date.le (a b : Date) : Prop :=
  a.y < b.y ∨ (a.y = b.y ∧ (a.m < b.m ∨ (a.m = b.m ∧ a.d ≤ b.d)))

instance : DecidableRel Date.le := fun a b => by
  unfold Date.le; infer_instance

/-- Boolean date order, for sorting. -/
def dateLeB (a b : Date) : Bool := decide (Date.le a b)

/-- `GET /api/actual-dates`: `SELECT DISTINCT have_date FROM offers
WHERE status='active' AND have_date >= today ORDER BY have_date`, where
`today = as_local_now().date()` is passed in by the caller of the
model. -/
def actual_dates (today : Date) (db : DB) : List Date :=
  sortByB dateLeB
    (((db.offers.filter (fun o =>
        decide (o.status = Status.active ∧ Date.le today o.have_date))).map
      Offer.have_date).dedup)

/-! ## Profile upsert: `POST /api/auth/telegram` -/

/-- `(u.get("first_name","") + " " + u.get("last_name","")).strip() or None`. -/
def fullFromTg (u : UserRec) : Option String :=
  let s := ((u.first_name.getD "") ++ " " ++ (u.last_name.getD "")).trim
  if s = "" then none else some s

/-- The state transition of the `auth` endpoint after verification: if
a row with the caller's `tg_id` exists, `UPDATE users SET
tg_username=... WHERE tg_id=...`; otherwise insert a fresh row with the
name derived from the Telegram record and a null department. -/
def auth (u : UserRec) (db : DB) : DB :=
  if db.users.any (fun r => decide (r.tg_id = u.id)) then
    { db with users := db.users.map (fun r =>
        if r.tg_id = u.id then { r with tg_username := u.username } else r) }
  else
    { db with users := db.users ++ [⟨u.id, u.username, fullFromTg u, none⟩] }

/-! ## Offer creation -/

/-- Request body of `POST /api/offers`. -/
structure OfferIn where
  department : String
  have_date : Date
  have_hour : Nat
  wants : List Slot
deriving DecidableEq, Repr

/-- Response body (`created_at` not modelled). -/
structure OfferOut where
  id : Nat
  department : String
  have_date : Date
  have_hour : Nat
  wants : List Slot
  status : Status
deriving DecidableEq, Repr

/-- Slot order used by `ORDER BY want_date, want_hour`. -/
def slotLeB (a b : Slot) : Bool :=
  decide (Date.le a.date b.date ∧ (a.date = b.date → a.hour ≤ b.hour))

/-- `_row_to_offer_out`: the offer row joined with its wants, sorted. -/
def row_to_offer_out (db : DB) (o : Offer) : OfferOut :=
  { id := o.id, department := o.department, have_date := o.have_date,
    have_hour := o.have_hour, wants := sortByB slotLeB (wantsOf db o.id),
    status := o.status }

/-- Python truthiness of a nullable text column: `None` and `""` are
falsy. -/
def truthy : Option String → Bool
  | none => false
  | some s => !(s == "")

/-- `create_offer`, after `check_init_data` has yielded the caller's
`tg_id`: profile-completeness check, department check, future checks on
the have-slot and every want, insert of the offer row (fresh `SERIAL`
id) and its want rows, then the synchronous match attempt, and finally
the re-read response. Returns (response, new state, notification log). -/
def create_offer (send : Int → String → Except String Unit)
    (botToken : String) (now_utc : Int) (tg_id : Int) (body : OfferIn)
    (db : DB) : Except (Nat × String) OfferOut × DB × Option String :=
  match db.users.find? (fun r => decide (r.tg_id = tg_id)) with
  | none => (Except.error (400, "Fill profile (full name & department) first"),
      db, none)
  | some row =>
    if !(truthy row.department && truthy row.full_name) then
      (Except.error (400, "Fill profile (full name & department) first"),
        db, none)
    else match check_department body.department with
    | Except.error e => (Except.error e, db, none)
    | Except.ok _ =>
      match validate_future now_utc body.have_date body.have_hour with
      | Except.error e => (Except.error e, db, none)
      | Except.ok _ =>
        if body.wants.isEmpty then
          (Except.error (400, "wants is empty"), db, none)
        else if !(body.wants.all (fun w =>
            decide (now_utc < candidateUtc w.date w.hour))) then
          (Except.error (400, "Date/time already passed"), db, none)
        else
          let oid := db.nextOfferId
          let off : Offer := ⟨oid, tg_id, body.department, body.have_date,
            body.have_hour, Status.active⟩
          let db1 : DB := { db with
            offers := db.offers ++ [off],
            wants := db.wants ++ body.wants.map
              (fun w => ⟨oid, w.date, w.hour⟩),
            nextOfferId := oid + 1 }
          match try_match_and_notify send botToken db1 oid with
          | (db2, _, log) =>
            match db2.offers.find? (fun o => decide (o.id = oid)) with
            | none => (Except.error (500, "offer vanished"), db2, log)
            | some full => (Except.ok (row_to_offer_out db2 full), db2, log)

/-- Strict date order (a date strictly in the future of another). -/
def Date.lt (a b : Date) : Prop :=
  a.y < b.y ∨ (a.y = b.y ∧ (a.m < b.m ∨ (a.m = b.m ∧ a.d < b.d)))

instance : DecidableRel Date.lt := fun a b => by
  unfold Date.lt; infer_instance

/-- The status of the offer with a given id, as read back from the
store (`SELECT status FROM offers WHERE id=...`). -/
def statusOf (db : DB) (oid : Nat) : Option Status :=
  (db.offers.find? (fun o => decide (o.id = oid))).map Offer.status

/-! ## List sorting helper lemmas -/

theorem insertLe_perm {α : Type} (le : α → α → Bool) (a : α) (l : List α) :
    List.Perm (insertLe le a l) (a :: l) := by
  induction l with
  | nil => exact List.Perm.refl _
  | cons b bs ih =>
    unfold insertLe
    by_cases h : le a b = true
    · rw [if_pos h]
    · rw [if_neg h]
      exact (ih.cons b).trans (List.Perm.swap a b bs)

theorem sortByB_perm {α : Type} (le : α → α → Bool) (l : List α) :
    List.Perm (sortByB le l) l := by
  induction l with
  | nil => exact List.Perm.refl _
  | cons a as ih =>
    have : sortByB le (a :: as) = insertLe le a (sortByB le as) := rfl
    rw [this]
    exact (insertLe_perm le a _).trans (ih.cons a)

theorem mem_sortByB {α : Type} (le : α → α → Bool) (a : α) (l : List α) :
    a ∈ sortByB le l ↔ a ∈ l :=
  (sortByB_perm le l).mem_iff

theorem insertLe_pairwise {α : Type} (le : α → α → Bool)
    (htot : ∀ a b, le a b = true ∨ le b a = true)
    (htr : ∀ a b c, le a b = true → le b c = true → le a c = true)
    (a : α) (l : List α)
    (hl : List.Pairwise (fun x y => le x y = true) l) :
    List.Pairwise (fun x y => le x y = true) (insertLe le a l) := by
  induction l with
  | nil => exact List.pairwise_singleton _ a
  | cons b bs ih =>
    unfold insertLe
    rcases List.pairwise_cons.mp hl with ⟨hb, hbs⟩
    by_cases h : le a b = true
    · rw [if_pos h]
      refine List.pairwise_cons.mpr ⟨?_, hl⟩
      intro x hx
      rcases List.mem_cons.mp hx with rfl | hx
      · exact h
      · exact htr a b x h (hb x hx)
    · rw [if_neg h]
      refine List.pairwise_cons.mpr ⟨?_, ih hbs⟩
      intro x hx
      rcases List.mem_cons.mp ((insertLe_perm le a bs).mem_iff.mp hx) with
        rfl | h1
      · rcases htot x b with h2 | h2
        · exact absurd h2 h
        · exact h2
      · exact hb x h1

theorem sortByB_pairwise {α : Type} (le : α → α → Bool)
    (htot : ∀ a b, le a b = true ∨ le b a = true)
    (htr : ∀ a b c, le a b = true → le b c = true → le a c = true)
    (l : List α) :
    List.Pairwise (fun x y => le x y = true) (sortByB le l) := by
  induction l with
  | nil => exact List.Pairwise.nil
  | cons a as ih =>
    have : sortByB le (a :: as) = insertLe le a (sortByB le as) := rfl
    rw [this]
    exact insertLe_pairwise le htot htr a _ ih

/-! ## C3: strict futurity of `validate_future` -/

/-- C3: `validate_future` converts a (date, hour) candidate from GMT+3
to UTC by subtracting exactly 3 hours of seconds, accepts it exactly
when the result is strictly greater than the current UTC instant, and
rejects every candidate at or before "now" with the `SlotInPast`
error (`400, "Date/time already passed"`). -/
theorem validate_future_strict (now_utc : Int) (dt : Date) (hh : Nat) :
    candidateUtc dt hh = localSecs dt hh - 3 * 3600 ∧
    (validate_future now_utc dt hh = Except.ok () ↔
      now_utc < candidateUtc dt hh) ∧
    (candidateUtc dt hh ≤ now_utc →
      validate_future now_utc dt hh =
        Except.error (400, "Date/time already passed")) := by
  refine ⟨rfl, ?_, ?_⟩
  · unfold validate_future
    by_cases h : candidateUtc dt hh ≤ now_utc
    · rw [if_pos h]
      constructor
      · intro hc; exact absurd hc (by simp)
      · intro hc; omega
    · rw [if_neg h]
      constructor
      · intro _; omega
      · intro _; rfl
  · intro h
    unfold validate_future
    rw [if_pos h]

/-- Witness for C3 at the concrete slot 2025-01-10 08:00 with "now"
exactly equal to its UTC instant: the candidate is rejected. -/
theorem validate_future_strict_witness :
    validate_future (candidateUtc ⟨2025, 1, 10⟩ 8) ⟨2025, 1, 10⟩ 8 =
      Except.error (400, "Date/time already passed") :=
  (validate_future_strict (candidateUtc ⟨2025, 1, 10⟩ 8)
    ⟨2025, 1, 10⟩ 8).2.2 (le_refl _)

/-! ## C2: the verifier's case analysis -/

/-- C2: `check_init_data` (with the external MAC and JSON primitives
abstract), on a configured server: fails with `missing hash`
(AuthMissingSignature) when the token has no `hash` key; fails with
`bad hash` (AuthInvalidSignature) when the supplied hash differs from
the MAC of the canonical sorted `key=value` check string of the
remaining pairs; fails with `missing user`/`bad user json`
(AuthMalformedPayload) when the hash matches but the `user` field is
absent, empty, or fails to decode; and returns the decoded user record
when the hash matches and `user` is well-formed. -/
theorem check_init_data_cases (mac : String → String)
    (pj : String → Option UserRec) (bt : String)
    (ps : List (String × String)) (hbt : bt ≠ "") :
    ((dictify ps).lookup "hash" = none →
      check_init_data mac pj bt ps = Except.error (401, "missing hash")) ∧
    (∀ hh, (dictify ps).lookup "hash" = some hh →
      mac (data_check_string
          ((dictify ps).filter (fun p => !(p.1 == "hash")))) ≠ hh →
      check_init_data mac pj bt ps = Except.error (401, "bad hash")) ∧
    (∀ hh, (dictify ps).lookup "hash" = some hh →
      mac (data_check_string
          ((dictify ps).filter (fun p => !(p.1 == "hash")))) = hh →
      (((dictify ps).filter (fun p => !(p.1 == "hash"))).lookup "user" = none ∨
       ((dictify ps).filter (fun p => !(p.1 == "hash"))).lookup "user" = some "" ∨
       (∃ uj, ((dictify ps).filter (fun p => !(p.1 == "hash"))).lookup "user" =
          some uj ∧ pj uj = none)) →
      (check_init_data mac pj bt ps = Except.error (401, "missing user") ∨
       check_init_data mac pj bt ps = Except.error (401, "bad user json"))) ∧
    (∀ hh uj u, (dictify ps).lookup "hash" = some hh →
      mac (data_check_string
          ((dictify ps).filter (fun p => !(p.1 == "hash")))) = hh →
      ((dictify ps).filter (fun p => !(p.1 == "hash"))).lookup "user" = some uj →
      uj ≠ "" → pj uj = some u →
      check_init_data mac pj bt ps = Except.ok u) := by
  unfold check_init_data
  rw [if_neg hbt]
  refine ⟨?_, ?_, ?_, ?_⟩
  · intro h; simp only [h]
  · intro hh h hne
    simp only [h, if_pos hne]
  · intro hh h heq hbad
    simp only [h, if_neg (not_not_intro heq)]
    rcases hbad with hu | hu | ⟨uj, hu, hpj⟩
    · left; simp only [hu]
    · left; simp only [hu]; rfl
    · simp only [hu]
      by_cases he : uj = ""
      · left; rw [if_pos he]
      · right; rw [if_neg he, hpj]
  · intro hh uj u h heq hu hne hpj
    simp only [h, if_neg (not_not_intro heq), hu, if_neg hne, hpj]

/-- Witness for C2: a concrete token with a wrong signature fails with
`bad hash`, via the theorem applied at a concrete MAC and parser. -/
theorem check_init_data_cases_witness :
    check_init_data (fun s => "m" ++ s) (fun _ => none) "tok"
      [("user", "U"), ("hash", "wrong")] =
      Except.error (401, "bad hash") := by
  have h := (check_init_data_cases (fun s => "m" ++ s) (fun _ => none) "tok"
    [("user", "U"), ("hash", "wrong")] (by decide)).2.1 "wrong"
  exact h (by decide) (by decide)

/-! ## Matching-engine helper lemmas -/

theorem mem_matchCandidates (db : DB) (A : Offer) (W : List Slot)
    (B : Offer) :
    B ∈ matchCandidates db A W ↔
      B ∈ db.offers ∧ B.status = Status.active ∧
      B.department = A.department ∧ haveSlot B ∈ W ∧
      B.user_tg ≠ A.user_tg := by
  simp [matchCandidates, List.mem_filter, and_assoc]

theorem try_match_eq_of_find_none (db : DB) (oid : Nat)
    (h : db.offers.find?
      (fun o => decide (o.id = oid ∧ o.status = Status.active)) = none) :
    try_match db oid = (db, none) := by
  unfold try_match
  rw [h]

theorem try_match_some_inv (db : DB) (oid : Nat) (db' : DB)
    (A B : Offer) (h : try_match db oid = (db', some (A, B))) :
    db.offers.find?
        (fun o => decide (o.id = oid ∧ o.status = Status.active)) = some A ∧
    (matchCandidates db A (wantsOf db oid)).find?
        (fun b => decide (haveSlot A ∈ wantsOf db b.id)) = some B ∧
    db' = markMatched db A.id B.id := by
  unfold try_match at h
  split at h
  · simp at h
  · rename_i A0 hfind
    dsimp only at h
    split at h
    · simp at h
    · rename_i B0 hcand
      simp only [Prod.mk.injEq, Option.some.injEq] at h
      rcases h with ⟨hdb, rfl, rfl⟩
      exact ⟨hfind, hcand, hdb.symm⟩

/-! ## C4: only active offers participate -/

/-- C4: an offer that is not `active` never takes part in a match: if
no active offer carries the trigger id, `try_match` returns `NoMatch`
with the store unchanged; and whenever `try_match` reports a matched
pair, both the trigger offer and the selected candidate were read from
the store with status `active` (so `matched`/`cancelled`/`expired`
offers are never selected in any scan). -/
theorem try_match_status_guard (db : DB) (oid : Nat) :
    ((∀ o ∈ db.offers, o.id = oid → o.status ≠ Status.active) →
      try_match db oid = (db, none)) ∧
    (∀ db' A B, try_match db oid = (db', some (A, B)) →
      A ∈ db.offers ∧ B ∈ db.offers ∧
      A.status = Status.active ∧ B.status = Status.active) := by
  constructor
  · intro h
    apply try_match_eq_of_find_none
    rw [List.find?_eq_none]
    intro o ho
    simp only [decide_eq_true_eq, not_and]
    intro hid
    exact h o ho hid
  · intro db' A B h
    rcases try_match_some_inv db oid db' A B h with ⟨hfind, hcand, _⟩
    have hA := List.find?_some hfind
    have hAmem := List.mem_of_find?_eq_some hfind
    simp only [decide_eq_true_eq] at hA
    have hBmem := List.mem_of_find?_eq_some hcand
    rcases (mem_matchCandidates db A (wantsOf db oid) B).mp hBmem with
      ⟨hB1, hB2, _, _, _⟩
    exact ⟨hAmem, hB1, hA.2, hB2⟩

/-- Witness for C4: on a store whose only offer is already `matched`,
a match attempt on its id is a no-op `NoMatch`. -/
theorem try_match_status_guard_witness :
    try_match ⟨[], [⟨1, 1, "VIP CALLS", ⟨2025, 1, 10⟩, 8, Status.matched⟩],
        [], 2⟩ 1 =
      (⟨[], [⟨1, 1, "VIP CALLS", ⟨2025, 1, 10⟩, 8, Status.matched⟩], [], 2⟩,
        none) :=
  (try_match_status_guard _ 1).1 (by decide)

/-! ## C8: no self-match, no same-user match -/

/-- C8: `try_match` never pairs an offer with itself or with another
offer of the same user: a reported partner always belongs to a
different user (hence is a different offer) — the `user_tg <>`
condition of the candidate query — and on a store whose offers all
belong to one user (in particular, a single offer wanting its own
have-slot) every match attempt returns `NoMatch` unchanged. -/
theorem try_match_no_self_match (db : DB) (oid : Nat) :
    (∀ db' A B, try_match db oid = (db', some (A, B)) →
      B.user_tg ≠ A.user_tg ∧ B ≠ A) ∧
    (∀ u : Int, (∀ o ∈ db.offers, o.user_tg = u) →
      try_match db oid = (db, none)) := by
  constructor
  · intro db' A B h
    rcases try_match_some_inv db oid db' A B h with ⟨_, hcand, _⟩
    have hBmem := List.mem_of_find?_eq_some hcand
    rcases (mem_matchCandidates db A (wantsOf db oid) B).mp hBmem with
      ⟨_, _, _, _, hu⟩
    refine ⟨hu, ?_⟩
    intro hBA
    exact hu (by rw [hBA])
  · intro u hall
    unfold try_match
    split
    · rfl
    · rename_i A0 hfind
      dsimp only
      split
      · rfl
      · rename_i B0 hcand
        exfalso
        have hAmem := List.mem_of_find?_eq_some hfind
        have hBmem := List.mem_of_find?_eq_some hcand
        rcases (mem_matchCandidates db A0 (wantsOf db oid) B0).mp hBmem with
          ⟨hB1, _, _, _, hu⟩
        exact hu ((hall B0 hB1).trans (hall A0 hAmem).symm)

/-- Witness for C8: a single offer whose want set contains its own
have-slot does not match itself. -/
theorem try_match_no_self_match_witness :
    try_match ⟨[], [⟨1, 1, "VIP CALLS", ⟨2025, 1, 10⟩, 8, Status.active⟩],
        [⟨1, ⟨2025, 1, 10⟩, 8⟩], 2⟩ 1 =
      (⟨[], [⟨1, 1, "VIP CALLS", ⟨2025, 1, 10⟩, 8, Status.active⟩],
        [⟨1, ⟨2025, 1, 10⟩, 8⟩], 2⟩, none) :=
  (try_match_no_self_match _ 1).2 1 (by decide)

/-! ## C10: candidate eligibility is purely non-temporal -/

/-- C10: membership in the candidate query of `try_match` is exactly
`active` status, equal department, a want-set hit on the have-slot,
and a different owning user — no temporal condition appears (neither
`try_match` nor `matchCandidates` takes a clock), so an offer whose
have-slot has already passed but was not yet swept is still eligible,
as trigger and as candidate. -/
theorem matchCandidates_no_temporal (db : DB) (A : Offer)
    (W : List Slot) (B : Offer) :
    B ∈ matchCandidates db A W ↔
      B ∈ db.offers ∧ B.status = Status.active ∧
      B.department = A.department ∧ haveSlot B ∈ W ∧
      B.user_tg ≠ A.user_tg :=
  mem_matchCandidates db A W B

/-- Witness for C10: a candidate whose have-slot (year 2000) lies far
in the past is still selected by the candidate query. -/
theorem matchCandidates_no_temporal_witness :
    (⟨2, 2, "VIP CALLS", ⟨2000, 1, 10⟩, 8, Status.active⟩ : Offer) ∈
      matchCandidates
        ⟨[], [⟨1, 1, "VIP CALLS", ⟨2000, 1, 12⟩, 10, Status.active⟩,
              ⟨2, 2, "VIP CALLS", ⟨2000, 1, 10⟩, 8, Status.active⟩], [], 3⟩
        ⟨1, 1, "VIP CALLS", ⟨2000, 1, 12⟩, 10, Status.active⟩
        [⟨⟨2000, 1, 10⟩, 8⟩] :=
  (matchCandidates_no_temporal _ _ _ _).mpr (by refine ⟨?_, ?_, ?_, ?_, ?_⟩ <;> decide)

/-! ## C5: the expiry sweep -/

theorem expire_contains (now : Int) (db : DB)
    (hnd : (db.offers.map Offer.id).Nodup) (o : Offer)
    (ho : o ∈ db.offers) :
    ((db.offers.filter (expiredSel now)).map Offer.id).contains o.id =
      expiredSel now o := by
  by_cases h : expiredSel now o = true
  · rw [h]
    have : o.id ∈ (db.offers.filter (expiredSel now)).map Offer.id := by
      exact List.mem_map.mpr ⟨o, List.mem_filter.mpr ⟨ho, h⟩, rfl⟩
    simpa [List.elem_iff] using this
  · rw [Bool.not_eq_true] at h
    have hmem : o.id ∉ (db.offers.filter (expiredSel now)).map Offer.id := by
      simp only [List.mem_map, List.mem_filter]
      rintro ⟨o', ⟨ho', hsel⟩, hid⟩
      have he : o' = o := List.inj_on_of_nodup_map hnd ho' ho hid
      rw [he, h] at hsel
      exact Bool.false_ne_true hsel
    rw [h]
    exact Bool.eq_false_iff.mpr (fun hc => hmem (List.elem_iff.mp hc))

/-- C5: one run of `cleanup_expired` at a fixed local instant rewrites
the offer table pointwise, flipping to `expired` exactly the offers
that are `active` with a have-slot instant at or before now and
leaving every other row unchanged (users and wants untouched); and a
second run at the same instant is a no-op, since the rows expired by
the first run fail the `active` filter. -/
theorem cleanup_expired_exact (now : Int) (db : DB)
    (hnd : (db.offers.map Offer.id).Nodup) :
    (cleanup_expired now db).offers = db.offers.map (fun o =>
        if o.status = Status.active ∧
            localSecs o.have_date o.have_hour ≤ now then
          { o with status := Status.expired }
        else o) ∧
    (cleanup_expired now db).users = db.users ∧
    (cleanup_expired now db).wants = db.wants ∧
    cleanup_expired now (cleanup_expired now db) = cleanup_expired now db := by
  have hchar : (cleanup_expired now db).offers = db.offers.map (fun o =>
      if o.status = Status.active ∧
          localSecs o.have_date o.have_hour ≤ now then
        { o with status := Status.expired }
      else o) := by
    unfold cleanup_expired
    dsimp only
    by_cases hemp :
        ((db.offers.filter (expiredSel now)).map Offer.id).isEmpty = true
    · rw [if_pos hemp]
      have hnil : db.offers.filter (expiredSel now) = [] := by
        have := List.isEmpty_iff.mp hemp
        exact List.map_eq_nil_iff.mp this
      have hsel : ∀ o ∈ db.offers, expiredSel now o = false := by
        intro o ho
        by_contra hx
        rw [Bool.not_eq_false] at hx
        have : o ∈ db.offers.filter (expiredSel now) :=
          List.mem_filter.mpr ⟨ho, hx⟩
        rw [hnil] at this
        exact List.not_mem_nil o this
      symm
      calc db.offers.map (fun o =>
            if o.status = Status.active ∧
                localSecs o.have_date o.have_hour ≤ now then
              { o with status := Status.expired }
            else o)
          = db.offers.map (fun o => o) := by
            apply List.map_congr_left
            intro o ho
            have := hsel o ho
            rw [if_neg]
            simpa [expiredSel] using this
        _ = db.offers := List.map_id' db.offers
    · rw [if_neg hemp]
      apply List.map_congr_left
      intro o ho
      have hc := expire_contains now db hnd o ho
      by_cases hp : o.status = Status.active ∧
          localSecs o.have_date o.have_hour ≤ now
      · have hx : expiredSel now o = true := by simpa [expiredSel] using hp
        rw [hx] at hc
        rw [if_pos hc, if_pos hp]
      · have hx : expiredSel now o = false := by simpa [expiredSel] using hp
        rw [hx] at hc
        rw [if_neg (by rw [hc]; exact Bool.false_ne_true), if_neg hp]
  have husers : (cleanup_expired now db).users = db.users := by
    unfold cleanup_expired
    dsimp only
    split <;> rfl
  have hwants : (cleanup_expired now db).wants = db.wants := by
    unfold cleanup_expired
    dsimp only
    split <;> rfl
  refine ⟨hchar, husers, hwants, ?_⟩
  have hnil : (cleanup_expired now db).offers.filter (expiredSel now) = [] := by
    rw [hchar, List.filter_eq_nil_iff]
    intro o' ho'
    rcases List.mem_map.mp ho' with ⟨o, _, rfl⟩
    by_cases hp : o.status = Status.active ∧
        localSecs o.have_date o.have_hour ≤ now
    · rw [if_pos hp]
      simp [expiredSel]
    · rw [if_neg hp]
      simp only [expiredSel, decide_eq_true_eq]
      exact hp
  conv_lhs => rw [cleanup_expired]
  rw [hnil]
  simp

/-- Witness for C5: on a concrete two-offer store (one past-active, one
future-active) the sweep is idempotent at the same instant. -/
theorem cleanup_expired_exact_witness :
    cleanup_expired (localSecs ⟨2025, 1, 10⟩ 9)
        (cleanup_expired (localSecs ⟨2025, 1, 10⟩ 9)
          ⟨[], [⟨1, 1, "VIP CALLS", ⟨2025, 1, 10⟩, 8, Status.active⟩,
                ⟨2, 2, "VIP CALLS", ⟨2025, 1, 12⟩, 10, Status.active⟩],
            [], 3⟩) =
      cleanup_expired (localSecs ⟨2025, 1, 10⟩ 9)
        ⟨[], [⟨1, 1, "VIP CALLS", ⟨2025, 1, 10⟩, 8, Status.active⟩,
              ⟨2, 2, "VIP CALLS", ⟨2025, 1, 12⟩, 10, Status.active⟩],
          [], 3⟩ :=
  (cleanup_expired_exact (localSecs ⟨2025, 1, 10⟩ 9) _ (by decide)).2.2.2

/-! ## C7: the actual-dates query -/

theorem dateLeB_total (a b : Date) : dateLeB a b = true ∨ dateLeB b a = true := by
  simp only [dateLeB, decide_eq_true_eq]
  unfold Date.le
  omega

theorem dateLeB_trans (a b c : Date) (h1 : dateLeB a b = true)
    (h2 : dateLeB b c = true) : dateLeB a c = true := by
  simp only [dateLeB, decide_eq_true_eq] at h1 h2 ⊢
  unfold Date.le at h1 h2 ⊢
  omega

/-- C7 counterexample: a date equal to the current GMT+3 date — hence
not a *future* date — is returned by `actual_dates` when an active
offer exists on it: the `have_date >= today` filter of the source is
inclusive of today. -/
theorem actual_dates_today_included :
    (⟨2025, 1, 10⟩ : Date) ∈
      actual_dates ⟨2025, 1, 10⟩
        ⟨[], [⟨1, 1, "VIP CALLS", ⟨2025, 1, 10⟩, 8, Status.active⟩], [], 2⟩ ∧
    ¬ Date.lt ⟨2025, 1, 10⟩ ⟨2025, 1, 10⟩ := by
  constructor
  · decide
  · decide

/-- C7 (amended): `actual_dates` returns exactly the distinct dates
*on or after* the current GMT+3 date carrying at least one `active`
offer, without duplicates and in ascending date order. -/
theorem actual_dates_exact (today : Date) (db : DB) :
    (actual_dates today db).Nodup ∧
    List.Pairwise Date.le (actual_dates today db) ∧
    (∀ d, d ∈ actual_dates today db ↔
      (Date.le today d ∧
        ∃ o ∈ db.offers, o.status = Status.active ∧ o.have_date = d)) := by
  refine ⟨?_, ?_, ?_⟩
  · exact ((sortByB_perm dateLeB _).nodup_iff).mpr (List.nodup_dedup _)
  · have := sortByB_pairwise dateLeB dateLeB_total dateLeB_trans
      (((db.offers.filter (fun o =>
          decide (o.status = Status.active ∧ Date.le today o.have_date))).map
        Offer.have_date).dedup)
    exact this.imp (fun h => by
      simpa [dateLeB] using h)
  · intro d
    unfold actual_dates
    rw [mem_sortByB, List.mem_dedup, List.mem_map]
    constructor
    · rintro ⟨o, ho, rfl⟩
      rcases List.mem_filter.mp ho with ⟨hmem, hsel⟩
      simp only [decide_eq_true_eq] at hsel
      exact ⟨hsel.2, o, hmem, hsel.1, rfl⟩
    · rintro ⟨hle, o, hmem, hst, rfl⟩
      exact ⟨o, List.mem_filter.mpr ⟨hmem, by
        simp only [decide_eq_true_eq]; exact ⟨hst, hle⟩⟩, rfl⟩

/-- Witness for C7 (amended) at a concrete store: a date on or after
today carrying an active offer is in the output. -/
theorem actual_dates_exact_witness :
    (⟨2025, 1, 12⟩ : Date) ∈
      actual_dates ⟨2025, 1, 10⟩
        ⟨[], [⟨1, 1, "VIP CALLS", ⟨2025, 1, 12⟩, 10, Status.active⟩], [], 2⟩ :=
  ((actual_dates_exact ⟨2025, 1, 10⟩
      ⟨[], [⟨1, 1, "VIP CALLS", ⟨2025, 1, 12⟩, 10, Status.active⟩], [], 2⟩).2.2
    ⟨2025, 1, 12⟩).mpr
    ⟨by decide, ⟨1, 1, "VIP CALLS", ⟨2025, 1, 12⟩, 10, Status.active⟩,
      by decide, rfl, rfl⟩

/-! ## C9: auth upsert touches only the caller's display handle -/

/-- C9: for an already-registered caller, the `auth` endpoint's state
transition rewrites the user table pointwise, setting `tg_username`
on the caller's row only: every other user's row is returned
verbatim, the caller's `full_name` and `department` are preserved,
and the offers and wants tables are untouched. -/
theorem auth_updates_only_username (u : UserRec) (db : DB)
    (hreg : ∃ r ∈ db.users, r.tg_id = u.id) :
    (auth u db).users = db.users.map (fun r =>
        if r.tg_id = u.id then { r with tg_username := u.username } else r) ∧
    (∀ r ∈ db.users, r.tg_id ≠ u.id → r ∈ (auth u db).users) ∧
    (∀ r ∈ db.users, r.tg_id = u.id →
      (⟨r.tg_id, u.username, r.full_name, r.department⟩ : UserRow) ∈
        (auth u db).users) ∧
    (auth u db).offers = db.offers ∧ (auth u db).wants = db.wants := by
  have hany : db.users.any (fun r => decide (r.tg_id = u.id)) = true := by
    rcases hreg with ⟨r, hr, hid⟩
    exact List.any_eq_true.mpr ⟨r, hr, by simpa using hid⟩
  have hmap : (auth u db).users = db.users.map (fun r =>
      if r.tg_id = u.id then { r with tg_username := u.username } else r) := by
    unfold auth
    rw [if_pos hany]
  refine ⟨hmap, ?_, ?_, ?_, ?_⟩
  · intro r hr hne
    rw [hmap]
    have : (if r.tg_id = u.id then
        ({ r with tg_username := u.username } : UserRow) else r) = r :=
      if_neg hne
    exact this ▸ List.mem_map_of_mem _ hr
  · intro r hr hid
    rw [hmap]
    have h1 : (if r.tg_id = u.id then
        ({ r with tg_username := u.username } : UserRow) else r) =
        ⟨r.tg_id, u.username, r.full_name, r.department⟩ := by
      rw [if_pos hid]
    exact h1 ▸ List.mem_map_of_mem _ hr
  · unfold auth
    rw [if_pos hany]
  · unfold auth
    rw [if_pos hany]

/-- Witness for C9: on a concrete two-user table, refreshing user 1's
handle maps the table pointwise, leaving user 2's row and user 1's
name/department intact. -/
theorem auth_updates_only_username_witness :
    (auth ⟨1, some "A", none, some "neo"⟩
        ⟨[⟨1, some "old", some "Alice", some "VIP CALLS"⟩,
          ⟨2, none, some "Bob", some "VIP CALLS"⟩], [], [], 1⟩).users =
      [⟨1, some "neo", some "Alice", some "VIP CALLS"⟩,
        ⟨2, none, some "Bob", some "VIP CALLS"⟩] := by
  have h := (auth_updates_only_username ⟨1, some "A", none, some "neo"⟩
    ⟨[⟨1, some "old", some "Alice", some "VIP CALLS"⟩,
      ⟨2, none, some "Bob", some "VIP CALLS"⟩], [], [], 1⟩
    ⟨⟨1, some "old", some "Alice", some "VIP CALLS"⟩, by decide, rfl⟩).1
  rw [h]
  rfl

/-! ## C6: notification failures are contained -/

theorem try_match_and_notify_eq (s : Int → String → Except String Unit)
    (bt : String) (db : DB) (oid : Nat) :
    try_match_and_notify s bt db oid =
      ((try_match db oid).1, (try_match db oid).2,
        match (try_match db oid).2 with
        | none => none
        | some (A, B) => notify_match s bt A.user_tg B.user_tg A B) := by
  unfold try_match_and_notify
  rcases h : try_match db oid with ⟨db', r⟩
  cases r with
  | none => simp [h]
  | some p =>
    rcases p with ⟨A, B⟩
    simp [h]

theorem find_markMatched (l : List Offer) (i j oid : Nat)
    (hor : oid = i ∨ oid = j) (hex : ∃ o ∈ l, o.id = oid) :
    ((l.map (fun o => if o.id = i ∨ o.id = j then
        { o with status := Status.matched } else o)).find?
      (fun o => decide (o.id = oid))).map Offer.status =
      some Status.matched := by
  induction l with
  | nil =>
    rcases hex with ⟨o, ho, _⟩
    exact absurd ho (List.not_mem_nil o)
  | cons a tl ih =>
    have hid : (if a.id = i ∨ a.id = j then
        ({ a with status := Status.matched } : Offer) else a).id = a.id := by
      by_cases hc : a.id = i ∨ a.id = j
      · rw [if_pos hc]
      · rw [if_neg hc]
    rw [List.map_cons]
    by_cases ha : a.id = oid
    · rw [List.find?_cons_of_pos _
        (by simp only [hid, decide_eq_true_eq]; exact ha)]
      have hc : a.id = i ∨ a.id = j := by
        rcases hor with rfl | rfl
        · exact Or.inl ha
        · exact Or.inr ha
      rw [if_pos hc]
      rfl
    · rw [List.find?_cons_of_neg _
        (by simp only [hid, decide_eq_true_eq]; exact ha)]
      apply ih
      rcases hex with ⟨o, ho, hoid⟩
      rcases List.mem_cons.mp ho with rfl | htl
      · exact absurd hoid ha
      · exact ⟨o, htl, hoid⟩

/-- C6: notification is best-effort and contained: the state and the
match result of `try_match_and_notify` are those of the pure match
transition whatever the transport does; the response and the state of
`create_offer` are identical under any two transports (in particular
one that always fails), so a transport failure never surfaces to the
request; and when a pair was matched, both offers read back as
`matched` in the store left by `try_match_and_notify`, for every
transport. -/
theorem notify_best_effort (send send' : Int → String → Except String Unit)
    (bt : String) (now_utc tg : Int) (body : OfferIn) (db : DB) (oid : Nat) :
    ((try_match_and_notify send bt db oid).1 = (try_match db oid).1 ∧
     (try_match_and_notify send bt db oid).2.1 = (try_match db oid).2) ∧
    ((create_offer send bt now_utc tg body db).1 =
        (create_offer send' bt now_utc tg body db).1 ∧
     (create_offer send bt now_utc tg body db).2.1 =
        (create_offer send' bt now_utc tg body db).2.1) ∧
    (∀ db' A B, try_match db oid = (db', some (A, B)) →
      statusOf (try_match_and_notify send bt db oid).1 A.id =
        some Status.matched ∧
      statusOf (try_match_and_notify send bt db oid).1 B.id =
        some Status.matched) := by
  refine ⟨?_, ?_, ?_⟩
  · rw [try_match_and_notify_eq]
    constructor <;> trivial
  · unfold create_offer
    cases hfind : db.users.find? (fun r => decide (r.tg_id = tg)) with
    | none => constructor <;> trivial
    | some row =>
      dsimp only
      by_cases hb : (!(truthy row.department && truthy row.full_name)) = true
      · simp only [if_pos hb]
        constructor <;> trivial
      · simp only [if_neg hb]
        cases hcd : check_department body.department with
        | error e => constructor <;> trivial
        | ok u' =>
          dsimp only
          cases hvf : validate_future now_utc body.have_date body.have_hour with
          | error e => constructor <;> trivial
          | ok u'' =>
            dsimp only
            by_cases he : body.wants.isEmpty = true
            · simp only [if_pos he]
              constructor <;> trivial
            · simp only [if_neg he]
              by_cases ha : (!(body.wants.all (fun w =>
                  decide (now_utc < candidateUtc w.date w.hour)))) = true
              · simp only [if_pos ha]
                constructor <;> trivial
              · simp only [if_neg ha]
                simp only [try_match_and_notify_eq]
                split <;> (constructor <;> rfl)
  · intro db' A B h
    rcases try_match_some_inv db oid db' A B h with ⟨hfindA, hcand, hdb'⟩
    have hAmem := List.mem_of_find?_eq_some hfindA
    have hBmem := List.mem_of_find?_eq_some hcand
    have hB1 := ((mem_matchCandidates db A (wantsOf db oid) B).mp hBmem).1
    have h1 : (try_match_and_notify send bt db oid).1 = db' := by
      rw [try_match_and_notify_eq, h]
    rw [h1, hdb']
    unfold statusOf markMatched
    constructor
    · exact find_markMatched db.offers A.id B.id A.id (Or.inl rfl)
        ⟨A, hAmem, rfl⟩
    · exact find_markMatched db.offers A.id B.id B.id (Or.inr rfl)
        ⟨B, hB1, rfl⟩

/-- Witness for C6: the concrete mutual pair is matched and both
statuses persist even when every transport call fails. -/
theorem notify_best_effort_witness :
    statusOf (try_match_and_notify (fun _ _ => Except.error "boom") "tok"
        ⟨[], [⟨1, 1, "VIP CALLS", ⟨2025, 1, 10⟩, 8, Status.active⟩,
              ⟨2, 2, "VIP CALLS", ⟨2025, 1, 12⟩, 10, Status.active⟩],
          [⟨1, ⟨2025, 1, 12⟩, 10⟩, ⟨2, ⟨2025, 1, 10⟩, 8⟩], 3⟩ 2).1 1 =
      some Status.matched := by
  have h := (notify_best_effort (fun _ _ => Except.error "boom")
    (fun _ _ => Except.ok ()) "tok" 0 0
    ⟨"VIP CALLS", ⟨2025, 1, 10⟩, 8, []⟩
    ⟨[], [⟨1, 1, "VIP CALLS", ⟨2025, 1, 10⟩, 8, Status.active⟩,
          ⟨2, 2, "VIP CALLS", ⟨2025, 1, 12⟩, 10, Status.active⟩],
      [⟨1, ⟨2025, 1, 12⟩, 10⟩, ⟨2, ⟨2025, 1, 10⟩, 8⟩], 3⟩ 2).2.2
    (markMatched ⟨[], [⟨1, 1, "VIP CALLS", ⟨2025, 1, 10⟩, 8, Status.active⟩,
          ⟨2, 2, "VIP CALLS", ⟨2025, 1, 12⟩, 10, Status.active⟩],
      [⟨1, ⟨2025, 1, 12⟩, 10⟩, ⟨2, ⟨2025, 1, 10⟩, 8⟩], 3⟩ 2 1)
    ⟨2, 2, "VIP CALLS", ⟨2025, 1, 12⟩, 10, Status.active⟩
    ⟨1, 1, "VIP CALLS", ⟨2025, 1, 10⟩, 8, Status.active⟩
    (by decide)
  exact h.2

/-! ## C1: mutual-match correctness -/

theorem create_pair_matches (send : Int → String → Except String Unit)
    (bt : String) (now_utc : Int) (u1 u2 : Int) (D : String) (X Y : Slot)
    (us : List UserRow) (n : Nat)
    (hu : u1 ≠ u2)
    (hD : check_department D = Except.ok ())
    (row1 row2 : UserRow)
    (hr1 : us.find? (fun r => decide (r.tg_id = u1)) = some row1)
    (hr2 : us.find? (fun r => decide (r.tg_id = u2)) = some row2)
    (ht1 : (truthy row1.department && truthy row1.full_name) = true)
    (ht2 : (truthy row2.department && truthy row2.full_name) = true)
    (hX : now_utc < candidateUtc X.date X.hour)
    (hY : now_utc < candidateUtc Y.date Y.hour) :
    create_offer send bt now_utc u1 ⟨D, X.date, X.hour, [Y]⟩ ⟨us, [], [], n⟩ =
      (Except.ok ⟨n, D, X.date, X.hour, [Y], Status.active⟩,
        ⟨us, [⟨n, u1, D, X.date, X.hour, Status.active⟩],
          [⟨n, Y.date, Y.hour⟩], n + 1⟩, none) ∧
    ∃ lg, create_offer send bt now_utc u2 ⟨D, Y.date, Y.hour, [X]⟩
        ⟨us, [⟨n, u1, D, X.date, X.hour, Status.active⟩],
          [⟨n, Y.date, Y.hour⟩], n + 1⟩ =
      (Except.ok ⟨n + 1, D, Y.date, Y.hour, [X], Status.matched⟩,
        ⟨us, [⟨n, u1, D, X.date, X.hour, Status.matched⟩,
              ⟨n + 1, u2, D, Y.date, Y.hour, Status.matched⟩],
          [⟨n, Y.date, Y.hour⟩, ⟨n + 1, X.date, X.hour⟩], n + 2⟩, lg) := by
  have hvX : validate_future now_utc X.date X.hour = Except.ok () := by
    unfold validate_future
    rw [if_neg (not_le.mpr hX)]
  have hvY : validate_future now_utc Y.date Y.hour = Except.ok () := by
    unfold validate_future
    rw [if_neg (not_le.mpr hY)]
  have hallY : ([Y].all (fun w =>
      decide (now_utc < candidateUtc w.date w.hour))) = true := by
    simp only [List.all_cons, List.all_nil, Bool.and_true, decide_eq_true_eq]
    exact hY
  have hallX : ([X].all (fun w =>
      decide (now_utc < candidateUtc w.date w.hour))) = true := by
    simp only [List.all_cons, List.all_nil, Bool.and_true, decide_eq_true_eq]
    exact hX
  have hbeq1 : (n == n + 1) = false :=
    beq_eq_false_iff_ne.mpr (Nat.ne_of_lt (Nat.lt_succ_self n))
  have hbeq2 : (n + 1 == n) = false :=
    beq_eq_false_iff_ne.mpr (Nat.succ_ne_self n)
  have hwo1 : wantsOf ⟨us, [⟨n, u1, D, X.date, X.hour, Status.active⟩],
      [⟨n, Y.date, Y.hour⟩], n + 1⟩ n = [Y] := by
    unfold wantsOf
    simp
  have htm1 : try_match ⟨us, [⟨n, u1, D, X.date, X.hour, Status.active⟩],
      [⟨n, Y.date, Y.hour⟩], n + 1⟩ n =
      (⟨us, [⟨n, u1, D, X.date, X.hour, Status.active⟩],
        [⟨n, Y.date, Y.hour⟩], n + 1⟩, none) := by
    unfold try_match
    rw [List.find?_cons_of_pos _ (by simp)]
    dsimp only
    rw [hwo1]
    have hmc : matchCandidates ⟨us,
        [⟨n, u1, D, X.date, X.hour, Status.active⟩],
        [⟨n, Y.date, Y.hour⟩], n + 1⟩
        ⟨n, u1, D, X.date, X.hour, Status.active⟩ [Y] = [] := by
      unfold matchCandidates
      rw [List.filter_cons_of_neg (by simp)]
      rfl
    rw [hmc]
    rfl
  have e1 : create_offer send bt now_utc u1 ⟨D, X.date, X.hour, [Y]⟩
      ⟨us, [], [], n⟩ =
      (Except.ok ⟨n, D, X.date, X.hour, [Y], Status.active⟩,
        ⟨us, [⟨n, u1, D, X.date, X.hour, Status.active⟩],
          [⟨n, Y.date, Y.hour⟩], n + 1⟩, none) := by
    unfold create_offer
    rw [hr1]
    dsimp only
    rw [ht1, Bool.not_true, if_neg Bool.false_ne_true, hD]
    dsimp only
    rw [hvX]
    dsimp only
    rw [if_neg (by simp)]
    rw [hallY, Bool.not_true, if_neg Bool.false_ne_true]
    simp only [List.nil_append, List.map_cons, List.map_nil]
    rw [try_match_and_notify_eq, htm1]
    dsimp only
    rw [List.find?_cons_of_pos _ (by simp)]
    dsimp only
    simp only [row_to_offer_out]
    rw [hwo1]
    rfl
  -- second creation: the store now holds the first offer
  have hwo2a : wantsOf ⟨us, [⟨n, u1, D, X.date, X.hour, Status.active⟩,
      ⟨n + 1, u2, D, Y.date, Y.hour, Status.active⟩],
      [⟨n, Y.date, Y.hour⟩, ⟨n + 1, X.date, X.hour⟩], n + 2⟩ (n + 1) =
      [X] := by
    unfold wantsOf
    rw [List.filter_cons_of_neg (by rw [hbeq1]; exact Bool.false_ne_true)]
    simp
  have hwo2b : wantsOf ⟨us, [⟨n, u1, D, X.date, X.hour, Status.active⟩,
      ⟨n + 1, u2, D, Y.date, Y.hour, Status.active⟩],
      [⟨n, Y.date, Y.hour⟩, ⟨n + 1, X.date, X.hour⟩], n + 2⟩ n = [Y] := by
    unfold wantsOf
    rw [List.filter_cons_of_pos (by simp)]
    rw [List.filter_cons_of_neg (by rw [hbeq2]; exact Bool.false_ne_true)]
    simp
  have htm2 : try_match ⟨us, [⟨n, u1, D, X.date, X.hour, Status.active⟩,
      ⟨n + 1, u2, D, Y.date, Y.hour, Status.active⟩],
      [⟨n, Y.date, Y.hour⟩, ⟨n + 1, X.date, X.hour⟩], n + 2⟩ (n + 1) =
      (⟨us, [⟨n, u1, D, X.date, X.hour, Status.matched⟩,
            ⟨n + 1, u2, D, Y.date, Y.hour, Status.matched⟩],
        [⟨n, Y.date, Y.hour⟩, ⟨n + 1, X.date, X.hour⟩], n + 2⟩,
       some (⟨n + 1, u2, D, Y.date, Y.hour, Status.active⟩,
             ⟨n, u1, D, X.date, X.hour, Status.active⟩)) := by
    unfold try_match
    rw [List.find?_cons_of_neg _
      (by simp only [decide_eq_true_eq]; rintro ⟨h, _⟩; omega)]
    rw [List.find?_cons_of_pos _ (by simp)]
    dsimp only
    rw [hwo2a]
    have hmc2 : matchCandidates ⟨us,
        [⟨n, u1, D, X.date, X.hour, Status.active⟩,
          ⟨n + 1, u2, D, Y.date, Y.hour, Status.active⟩],
        [⟨n, Y.date, Y.hour⟩, ⟨n + 1, X.date, X.hour⟩], n + 2⟩
        ⟨n + 1, u2, D, Y.date, Y.hour, Status.active⟩ [X] =
        [⟨n, u1, D, X.date, X.hour, Status.active⟩] := by
      unfold matchCandidates
      rw [List.filter_cons_of_pos (by simp [haveSlot, hu])]
      rw [List.filter_cons_of_neg (by simp)]
      rfl
    rw [hmc2]
    rw [List.find?_cons_of_pos _ (by
      dsimp only
      rw [hwo2b]
      simp [haveSlot])]
    dsimp only
    unfold markMatched
    simp
  have e2 : create_offer send bt now_utc u2 ⟨D, Y.date, Y.hour, [X]⟩
      ⟨us, [⟨n, u1, D, X.date, X.hour, Status.active⟩],
        [⟨n, Y.date, Y.hour⟩], n + 1⟩ =
      (Except.ok ⟨n + 1, D, Y.date, Y.hour, [X], Status.matched⟩,
        ⟨us, [⟨n, u1, D, X.date, X.hour, Status.matched⟩,
              ⟨n + 1, u2, D, Y.date, Y.hour, Status.matched⟩],
          [⟨n, Y.date, Y.hour⟩, ⟨n + 1, X.date, X.hour⟩], n + 2⟩,
       notify_match send bt u2 u1
         ⟨n + 1, u2, D, Y.date, Y.hour, Status.active⟩
         ⟨n, u1, D, X.date, X.hour, Status.active⟩) := by
    unfold create_offer
    rw [hr2]
    dsimp only
    rw [ht2, Bool.not_true, if_neg Bool.false_ne_true, hD]
    dsimp only
    rw [hvY]
    dsimp only
    rw [if_neg (by simp)]
    rw [hallX, Bool.not_true, if_neg Bool.false_ne_true]
    simp only [List.cons_append, List.nil_append, List.map_cons, List.map_nil]
    rw [try_match_and_notify_eq, htm2]
    dsimp only
    rw [List.find?_cons_of_neg _
      (by simp only [decide_eq_true_eq]; omega)]
    rw [List.find?_cons_of_pos _ (by simp)]
    dsimp only
    simp only [row_to_offer_out]
    rw [show wantsOf ⟨us, [⟨n, u1, D, X.date, X.hour, Status.matched⟩,
          ⟨n + 1, u2, D, Y.date, Y.hour, Status.matched⟩],
        [⟨n, Y.date, Y.hour⟩, ⟨n + 1, X.date, X.hour⟩], n + 2⟩ (n + 1) =
        [X] from by
      unfold wantsOf
      rw [List.filter_cons_of_neg (by rw [hbeq1]; exact Bool.false_ne_true)]
      simp]
    rfl
  exact ⟨e1, _, e2⟩

/-- C1: mutual-match correctness. Negative direction: any pair reported
by `try_match` lies in one department, belongs to two different users,
and satisfies exact mutual (have, want) membership — nothing else is
ever matched. Positive direction: for mutually-wanting offers A
(have X, wants {Y}) and B (have Y, wants {X}) of two
profile-complete users of one known department, creating both against
an offer-empty store — in either order — leaves the first creation's
offer `active` (its match attempt finds nothing) and makes exactly the
second creation the trigger that flips both offers to `matched`. -/
theorem mutual_match_correct (send : Int → String → Except String Unit)
    (bt : String) (now_utc : Int) (uA uB : Int) (D fA fB : String)
    (X Y : Slot) (us0 : List UserRow) (hus0 : us0 =
      [⟨uA, none, some fA, some D⟩, ⟨uB, none, some fB, some D⟩])
    (hu : uA ≠ uB)
    (hD : (DEPT_SLOTS.map Prod.fst).contains D = true)
    (hfA : fA ≠ "") (hfB : fB ≠ "")
    (hX : now_utc < candidateUtc X.date X.hour)
    (hY : now_utc < candidateUtc Y.date Y.hour) :
    (∀ db oid db' A B, try_match db oid = (db', some (A, B)) →
      A.id = oid ∧ B.department = A.department ∧ B.user_tg ≠ A.user_tg ∧
      haveSlot B ∈ wantsOf db A.id ∧ haveSlot A ∈ wantsOf db B.id) ∧
    (∃ outA outB,
      (create_offer send bt now_utc uA ⟨D, X.date, X.hour, [Y]⟩
          ⟨us0, [], [], 1⟩).1 = Except.ok outA ∧
      outA.status = Status.active ∧
      (create_offer send bt now_utc uB ⟨D, Y.date, Y.hour, [X]⟩
          (create_offer send bt now_utc uA ⟨D, X.date, X.hour, [Y]⟩
            ⟨us0, [], [], 1⟩).2.1).1 = Except.ok outB ∧
      outB.status = Status.matched ∧
      ∀ o ∈ (create_offer send bt now_utc uB ⟨D, Y.date, Y.hour, [X]⟩
          (create_offer send bt now_utc uA ⟨D, X.date, X.hour, [Y]⟩
            ⟨us0, [], [], 1⟩).2.1).2.1.offers,
        o.status = Status.matched) ∧
    (∃ outB outA,
      (create_offer send bt now_utc uB ⟨D, Y.date, Y.hour, [X]⟩
          ⟨us0, [], [], 1⟩).1 = Except.ok outB ∧
      outB.status = Status.active ∧
      (create_offer send bt now_utc uA ⟨D, X.date, X.hour, [Y]⟩
          (create_offer send bt now_utc uB ⟨D, Y.date, Y.hour, [X]⟩
            ⟨us0, [], [], 1⟩).2.1).1 = Except.ok outA ∧
      outA.status = Status.matched ∧
      ∀ o ∈ (create_offer send bt now_utc uA ⟨D, X.date, X.hour, [Y]⟩
          (create_offer send bt now_utc uB ⟨D, Y.date, Y.hour, [X]⟩
            ⟨us0, [], [], 1⟩).2.1).2.1.offers,
        o.status = Status.matched) := by
  subst hus0
  have hDne : D ≠ "" := by
    have h' : D ∈ DEPT_SLOTS.map Prod.fst := List.elem_iff.mp hD
    simp only [DEPT_SLOTS, List.map_cons, List.map_nil, List.mem_cons,
      List.not_mem_nil, or_false] at h'
    rcases h' with rfl | rfl | rfl <;> decide
  have hDok : check_department D = Except.ok () := by
    unfold check_department
    rw [if_pos hD]
  have hrA : ([⟨uA, none, some fA, some D⟩,
      ⟨uB, none, some fB, some D⟩] : List UserRow).find?
      (fun r => decide (r.tg_id = uA)) =
      some ⟨uA, none, some fA, some D⟩ :=
    List.find?_cons_of_pos _ (by simp)
  have hrB : ([⟨uA, none, some fA, some D⟩,
      ⟨uB, none, some fB, some D⟩] : List UserRow).find?
      (fun r => decide (r.tg_id = uB)) =
      some ⟨uB, none, some fB, some D⟩ := by
    rw [List.find?_cons_of_neg _ (by simp only [decide_eq_true_eq]; exact hu)]
    exact List.find?_cons_of_pos _ (by simp)
  have htA : (truthy (some D) && truthy (some fA)) = true := by
    simp [truthy, hDne, hfA]
  have htB : (truthy (some D) && truthy (some fB)) = true := by
    simp [truthy, hDne, hfB]
  refine ⟨?_, ?_, ?_⟩
  · intro db oid db' A B h
    rcases try_match_some_inv db oid db' A B h with ⟨hfind, hcand, _⟩
    have hA := List.find?_some hfind
    simp only [decide_eq_true_eq] at hA
    have hBmem := List.mem_of_find?_eq_some hcand
    rcases (mem_matchCandidates db A (wantsOf db oid) B).mp hBmem with
      ⟨_, _, hdept, hwant, huser⟩
    have hBsat := List.find?_some hcand
    simp only [decide_eq_true_eq] at hBsat
    exact ⟨hA.1, hdept, huser, hA.1 ▸ hwant, hBsat⟩
  · rcases create_pair_matches send bt now_utc uA uB D X Y
      [⟨uA, none, some fA, some D⟩, ⟨uB, none, some fB, some D⟩] 1 hu hDok
      ⟨uA, none, some fA, some D⟩ ⟨uB, none, some fB, some D⟩ hrA hrB
      htA htB hX hY with ⟨e1, lg, e2⟩
    refine ⟨⟨1, D, X.date, X.hour, [Y], Status.active⟩,
      ⟨2, D, Y.date, Y.hour, [X], Status.matched⟩, ?_, rfl, ?_, rfl, ?_⟩
    · rw [e1]
    · rw [e1]
      exact congrArg (fun t => t.1) e2
    · rw [e1]
      dsimp only
      rw [show ((1 : Nat) + 1) = 2 from rfl] at e2
      rw [e2]
      intro o ho
      rcases List.mem_cons.mp ho with rfl | ho
      · rfl
      · rcases List.mem_cons.mp ho with rfl | ho
        · rfl
        · exact absurd ho (List.not_mem_nil o)
  · rcases create_pair_matches send bt now_utc uB uA D Y X
      [⟨uA, none, some fA, some D⟩, ⟨uB, none, some fB, some D⟩] 1
      (fun h => hu h.symm) hDok
      ⟨uB, none, some fB, some D⟩ ⟨uA, none, some fA, some D⟩ hrB hrA
      htB htA hY hX with ⟨e1, lg, e2⟩
    refine ⟨⟨1, D, Y.date, Y.hour, [X], Status.active⟩,
      ⟨2, D, X.date, X.hour, [Y], Status.matched⟩, ?_, rfl, ?_, rfl, ?_⟩
    · rw [e1]
    · rw [e1]
      exact congrArg (fun t => t.1) e2
    · rw [e1]
      dsimp only
      rw [show ((1 : Nat) + 1) = 2 from rfl] at e2
      rw [e2]
      intro o ho
      rcases List.mem_cons.mp ho with rfl | ho
      · rfl
      · rcases List.mem_cons.mp ho with rfl | ho
        · rfl
        · exact absurd ho (List.not_mem_nil o)

/-- Witness for C1: the spec's concrete scenario — department
"VIP CALLS", user 1 gives 2025-01-10 08:00 wanting 2025-01-12 10:00,
user 2 the converse — creating A then B flips both to `matched` while
the first response is still `active`. -/
theorem mutual_match_correct_witness :
    ∃ outA outB,
      (create_offer (fun _ _ => Except.ok ()) "tok" 0 1
          ⟨"VIP CALLS", ⟨2025, 1, 10⟩, 8, [⟨⟨2025, 1, 12⟩, 10⟩]⟩
          ⟨[⟨1, none, some "Alice", some "VIP CALLS"⟩,
            ⟨2, none, some "Bob", some "VIP CALLS"⟩], [], [], 1⟩).1 =
        Except.ok outA ∧
      outA.status = Status.active ∧
      (create_offer (fun _ _ => Except.ok ()) "tok" 0 2
          ⟨"VIP CALLS", ⟨2025, 1, 12⟩, 10, [⟨⟨2025, 1, 10⟩, 8⟩]⟩
          (create_offer (fun _ _ => Except.ok ()) "tok" 0 1
            ⟨"VIP CALLS", ⟨2025, 1, 10⟩, 8, [⟨⟨2025, 1, 12⟩, 10⟩]⟩
            ⟨[⟨1, none, some "Alice", some "VIP CALLS"⟩,
              ⟨2, none, some "Bob", some "VIP CALLS"⟩], [], [], 1⟩).2.1).1 =
        Except.ok outB ∧
      outB.status = Status.matched ∧
      ∀ o ∈ (create_offer (fun _ _ => Except.ok ()) "tok" 0 2
          ⟨"VIP CALLS", ⟨2025, 1, 12⟩, 10, [⟨⟨2025, 1, 10⟩, 8⟩]⟩
          (create_offer (fun _ _ => Except.ok ()) "tok" 0 1
            ⟨"VIP CALLS", ⟨2025, 1, 10⟩, 8, [⟨⟨2025, 1, 12⟩, 10⟩]⟩
            ⟨[⟨1, none, some "Alice", some "VIP CALLS"⟩,
              ⟨2, none, some "Bob", some "VIP CALLS"⟩], [], [], 1⟩).2.1).2.1.offers,
        o.status = Status.matched :=
  (mutual_match_correct (fun _ _ => Except.ok ()) "tok" 0 1 2
    "VIP CALLS" "Alice" "Bob" ⟨⟨2025, 1, 10⟩, 8⟩ ⟨⟨2025, 1, 12⟩, 10⟩
    _ rfl (by decide) (by decide) (by decide) (by decide)
    (by decide) (by decide)).2.1

end TgMiniapp
